import Mathlib

/-!
# Verification of the swc-ts build pipeline

A shallow embedding of the `swc-ts` repository: the import rewriter and
content-stable file compiler of `src/swc-ts-build.ts`, the batch builder and
watch controller of the same file, the declaration-process supervisor
(`startTsc`), and the lifecycle coordinator of the unnamed launcher script.

Paths and file text are modelled as Lean `String`s (lists of characters);
the Node.js `path` helpers are re-implemented on normalized POSIX-style
paths.  External collaborators (the SWC transformation engine,
`require.resolve`, the minimatch-style glob matcher, the regex split of the
emitted text into import/require occurrences) are supplied as function-valued
fields of an `Env` record, exactly at the interface the source code uses
them.
-/

deriving instance DecidableEq for Except

namespace SwcTsBuild

/-! ## String and path model (Node `path` helpers on normalized paths) -/

/-- `String.prototype.trim`: strip whitespace from both ends. -/
def strTrim (s : String) : String :=
  String.mk
    (((s.data.dropWhile Char.isWhitespace).reverse.dropWhile
      Char.isWhitespace).reverse)

/-- `t` is a suffix of `s`, computed on the character lists. -/
def strEndsWith (s t : String) : Bool :=
  t.data.length ≤ s.data.length &&
    s.data.drop (s.data.length - t.data.length) == t.data

/-- Drop the last `n` characters, as `String.prototype.slice(0, -n)` does. -/
def strDropRight (s : String) (n : Nat) : String :=
  String.mk (s.data.take (s.data.length - n))

/-- Characters of the last path segment (`path.basename`): everything after
the final `/`. -/
def basenameList (l : List Char) : List Char :=
  (l.reverse.takeWhile (fun c => c ≠ '/')).reverse

/-- `path.basename` on a normalized path. -/
def basename (s : String) : String :=
  String.mk (basenameList s.data)

/-- Characters of `path.extname` of a basename: the final `.`-led run,
empty when there is no dot or the only dot leads the name (dotfile). -/
def extnameList (b : List Char) : List Char :=
  if '.' ∈ b then
    let afterRev := b.reverse.takeWhile (fun c => c ≠ '.')
    if afterRev.length + 1 == b.length then [] else '.' :: afterRev.reverse
  else []

/-- `path.extname` on a normalized path. -/
def extname (s : String) : String :=
  String.mk (extnameList (basenameList s.data))

/-- `path.isAbsolute` on a POSIX-style path. -/
def isAbsolutePath (s : String) : Bool :=
  s.data.head? == some '/'

/-- `path.join` on normalized segments. -/
def pathJoin (a b : String) : String :=
  a ++ "/" ++ b

/-- `path.relative(base, p)` for the in-project case the pipeline relies on:
when `p` lies under `base` the leading `base ++ "/"` is stripped, otherwise
the path is returned as given (the `../`-chain form for paths outside `base`
is not needed by the properties below). -/
def pathRelative (base p : String) : String :=
  if (base ++ "/").data.isPrefixOf p.data then
    String.mk (p.data.drop (base.data.length + 1))
  else p

/-- `path.dirname` on a normalized path. -/
def dirname (s : String) : String :=
  if s.data.contains '/' then
    String.mk (((s.data.reverse.dropWhile (fun c => c ≠ '/')).drop 1).reverse)
  else "."

/-! ## The two verbatim regular expressions of `resolveAndFixImport` -/

/-- A character matched by `[a-zA-Z0-9_-]` in the bare-package regex. -/
def isWordChar (c : Char) : Bool :=
  c.isAlphanum || c == '_' || c == '-'

/-- A nonempty run of word characters, `[a-zA-Z0-9_-]+`. -/
def isWord (l : List Char) : Bool :=
  !l.isEmpty && l.all isWordChar

/-- The test `/^(?:@[a-zA-Z0-9_-]+\/)?[a-zA-Z0-9_-]+$/.test(importPath)`:
either a single word, or `@`, a nonempty word, `/`, a nonempty word
(word characters exclude `/`, so the greedy scope run is exact). -/
def isBarePackage (s : String) : Bool :=
  match s.data with
  | '@' :: rest =>
    let scope := rest.takeWhile isWordChar
    match rest.dropWhile isWordChar with
    | '/' :: tail => !scope.isEmpty && isWord tail
    | _ => false
  | l => isWord l

/-- The test `/(?:^|..\/)+node_modules\//.test(relativeToCwd)`.  The two
dots in the group are unescaped, so the group matches any two characters
followed by `/`; a match therefore exists exactly when the literal
`node_modules/` occurs at index 0, or at an index `j ≥ 3` whose preceding
character is `/` (one group repetition suffices, `^` consumes nothing and
only holds at index 0). -/
def nodeModulesTest (s : String) : Bool :=
  let l := s.data
  let lit := "node_modules/".data
  (List.range l.length).any fun j =>
    lit.isPrefixOf (l.drop j) &&
      (j == 0 || (decide (3 ≤ j) && l.get? (j - 1) == some '/'))

/-! ## Environment: the external collaborators at the interface the code uses -/

/-- Errors a single-file compile can end in; the source logs them and the
per-file `catch` swallows them. -/
inductive CompileError where
  /-- `transformFile` (the opaque SWC engine) rejected the source text. -/
  | transformError (msg : String)
  /-- `require.resolve` failed on every candidate for this specifier. -/
  | resolveError (importPath : String)
  /-- `mkdir`/`writeFile` failed for this path. -/
  | fsError (path : String)
deriving DecidableEq, Repr

/-- One chunk of the decomposition of emitted text by one of the two global
regexes: either literal text left unchanged, or one match split into its
four capture groups `(prefixPart)(openQuote)(specifier)(closeQuote)`. -/
inductive Chunk where
  | lit (text : String)
  | hit (pre op spec cl : String)
deriving Repr

/-- The collaborators external to the repository, at the exact interface the
source uses: the SWC `transformFile` engine (path to code and optional map,
or a thrown error), one `require.resolve(candidate, \x7b paths: [dir] \x7d)`
step, `process.cwd()`, the minimatch-style pattern matcher shared by `glob`'s
`ignore` option and `micromatch.isMatch`, a write-failure oracle for
`mkdir`/`writeFile`, and the decompositions of emitted text produced by the
two global regexes of `compileFile` (JavaScript `String.replace` reassembles
the text from exactly these chunks, each match replaced via the callback). -/
structure Env where
  transform : String → Except String (String × Option String)
  resolveOracle : String → String → Option String
  cwd : String
  globMatch : String → String → Bool
  writeFails : String → Bool
  importSplit : String → List Chunk
  requireSplit : String → List Chunk

/-- The `resolve` helper: try the literal specifier then the `.ts`, `.tsx`
and `.js` suffixed candidates, returning the first `require.resolve`
success; when all fail the (last) error is thrown. -/
def resolve (env : Env) (importPath fileBeingCompiled : String) :
    Except CompileError String :=
  match [importPath, importPath ++ ".ts", importPath ++ ".tsx",
      importPath ++ ".js"].findSome?
      (fun p => env.resolveOracle p (dirname fileBeingCompiled)) with
  | some r => .ok r
  | none => .error (.resolveError importPath)

/-- `resolveAndFixImport`: maps an import specifier and the absolute path of
the file being compiled to the corrected specifier.  The source's `catch`
only logs and rethrows, so errors propagate unchanged. -/
def resolveAndFixImport (env : Env) (importPath fileBeingCompiled : String) :
    Except CompileError String :=
  if extname importPath = ".json" then .ok importPath
  else if isBarePackage importPath then .ok importPath
  else
    match resolve env importPath fileBeingCompiled with
    | .error e => .error e
    | .ok resolvedPath =>
      if !isAbsolutePath resolvedPath then .ok importPath
      else if nodeModulesTest (pathRelative env.cwd resolvedPath) then
        .ok importPath
      else if basename resolvedPath = "index.js" ∨
          basename resolvedPath = "index.ts" then
        .ok (importPath ++ "/index.js")
      else if extname importPath = ".ts" ∨ extname importPath = ".tsx" then
        .ok (strDropRight importPath 3 ++ ".js")
      else .ok (importPath ++ ".js")

/-! ## The file compiler -/

/-- One pass of `result.replace(regex, callback)`: reassemble the regex
decomposition of the text, sending each matched specifier through
`resolveAndFixImport`; a throw from the callback aborts the whole replace. -/
def applyPass (env : Env) (split : String → List Chunk)
    (fileBeingCompiled : String) (s : String) : Except CompileError String :=
  (split s).foldlM
    (fun acc c =>
      match c with
      | .lit t => pure (acc ++ t)
      | .hit pre op spec cl => do
        let fixed ← resolveAndFixImport env spec fileBeingCompiled
        pure (acc ++ pre ++ op ++ fixed ++ cl))
    ""

/-- The `reduce` over the two regexes: the import pass runs over the whole
transformed text, then the require pass runs over its result. -/
def fixImports (env : Env) (fileBeingCompiled : String) (code : String) :
    Except CompileError String := do
  let r1 ← applyPass env env.importSplit fileBeingCompiled code
  applyPass env env.requireSplit fileBeingCompiled r1

/-- One file on disk: its text and the modification time of its last
write. -/
structure FileState where
  content : String
  mtime : Nat
deriving DecidableEq, Repr

/-- The output tree: an association list from path to file state, plus a
logical clock supplying fresh modification times. -/
structure FS where
  files : List (String × FileState)
  clock : Nat
deriving DecidableEq, Repr

/-- `readFile` (successful case); `none` models both a missing file and a
read error, which `catchingAsync` in the source maps to the same `""`. -/
def FS.read (fs : FS) (p : String) : Option FileState :=
  List.lookup p fs.files

/-- `writeFile`: replaces the file's content and stamps the current clock
as its modification time. -/
def FS.write (fs : FS) (p c : String) : FS :=
  { files := (p, ⟨c, fs.clock⟩) :: fs.files, clock := fs.clock + 1 }

/-- How one `compileFile` invocation ended: it wrote the output, skipped the
write because the trimmed text was unchanged, or caught and logged an
error. -/
inductive Outcome where
  | wrote
  | skipped
  | failed (e : CompileError)
deriving DecidableEq, Repr

/-- Output path of a source file: mirror the path relative to `srcDir`
under `outDir` and swap a trailing `.ts`/`.tsx` for `.js`
(`path.join(outDir, relativePath).replace(/\.tsx?$/, '.js')`; the anchored
regex rewrites exactly a trailing source extension). -/
def outPathOf (srcDir outDir absoluteFilePath : String) : String :=
  let joined := pathJoin outDir (pathRelative srcDir absoluteFilePath)
  if strEndsWith joined ".tsx" then strDropRight joined 4 ++ ".js"
  else if strEndsWith joined ".ts" then strDropRight joined 3 ++ ".js"
  else joined

/-- The in-memory part of `compileFile`: transform the source, rewrite every
import/require occurrence, and append the `sourceMappingURL` comment when a
map was produced.  Every failure in this phase happens before any write. -/
def fixedOutput (env : Env) (absoluteFilePath srcDir outDir : String) :
    Except CompileError (String × Option String) :=
  let relativePath := pathRelative srcDir absoluteFilePath
  let outPath := outPathOf srcDir outDir absoluteFilePath
  let mapPath := outPath ++ ".map"
  match env.transform (pathJoin srcDir relativePath) with
  | .error m => .error (.transformError m)
  | .ok (code, mapOpt) =>
    match fixImports env absoluteFilePath code with
    | .error e => .error e
    | .ok fixed =>
      .ok (match mapOpt with
        | some _ => fixed ++ "\n//# sourceMappingURL=" ++ basename mapPath
        | none => fixed, mapOpt)

/-- `compileFile`: compute the fixed output, read any existing output file
(`""` when missing or unreadable), and write code and map only when the
trimmed texts differ.  The surrounding `try`/`catch` turns every error into
a logged `Outcome.failed`, so the function is total; a failure of the map
write still leaves the already-performed code write in place. -/
def compileFile (env : Env) (fs : FS) (absoluteFilePath srcDir outDir : String) :
    FS × Outcome :=
  match fixedOutput env absoluteFilePath srcDir outDir with
  | .error e => (fs, .failed e)
  | .ok (fixedCode, mapOpt) =>
    if strTrim fixedCode ≠
        strTrim (((fs.read (outPathOf srcDir outDir absoluteFilePath)).map
          FileState.content).getD "") then
      if env.writeFails (outPathOf srcDir outDir absoluteFilePath) then
        (fs, .failed (.fsError (outPathOf srcDir outDir absoluteFilePath)))
      else
        match mapOpt with
        | some m =>
          if env.writeFails (outPathOf srcDir outDir absoluteFilePath ++ ".map") then
            (fs.write (outPathOf srcDir outDir absoluteFilePath) fixedCode,
              .failed (.fsError (outPathOf srcDir outDir absoluteFilePath ++ ".map")))
          else
            ((fs.write (outPathOf srcDir outDir absoluteFilePath) fixedCode).write
              (outPathOf srcDir outDir absoluteFilePath ++ ".map") m, .wrote)
        | none =>
          (fs.write (outPathOf srcDir outDir absoluteFilePath) fixedCode, .wrote)
    else (fs, .skipped)

/-! ## Batch builder and watch controller -/

/-- The `glob(srcDir ++ "/**/*.\x7bts,tsx\x7d", \x7b ignore \x7d)` call:
from the files on disk, those under `srcDir` with a source extension and
matching no exclude pattern (the library's `ignore` contract, with the
minimatch-style matcher supplied by the environment). -/
def enumerate (env : Env) (srcDir : String) (allFiles : List String)
    (excludePatterns : List String) : List String :=
  allFiles.filter fun f =>
    (srcDir ++ "/").data.isPrefixOf f.data &&
    (strEndsWith f ".ts" || strEndsWith f ".tsx") &&
    !excludePatterns.any (fun p => env.globMatch f p)

/-- Drive `compileFile` over a list of files.  The source issues the
compiles through `Promise.all`, which settles every element regardless of
individual failures; each compile touches only its own output path, so the
batch is modelled as the fold of the per-file state transformers, recording
one outcome per file. -/
def processFiles (env : Env) (fs : FS) (srcDir outDir : String) :
    List String → FS × List Outcome
  | [] => (fs, [])
  | f :: rest =>
    let r := compileFile env fs f srcDir outDir
    let rr := processFiles env r.1 srcDir outDir rest
    (rr.1, r.2 :: rr.2)

/-- `runBuild`: enumerate and compile everything. -/
def runBuild (env : Env) (fs : FS) (srcDir outDir : String)
    (allFiles : List String) (excludePatterns : List String) :
    FS × List Outcome :=
  processFiles env fs srcDir outDir (enumerate env srcDir allFiles excludePatterns)

/-- The watcher's `ignored` predicate: a path is ignored when it matches an
exclude pattern; otherwise, when stats show a file, when its basename starts
with a dot, it ends in `.d.ts`, or it has no recognized source extension;
directories (and stat-less calls) are never ignored. -/
def watcherIgnored (env : Env) (excludePatterns : List String)
    (filePath : String) (statsIsFile : Option Bool) : Bool :=
  if excludePatterns.any (fun p => env.globMatch filePath p) then true
  else if statsIsFile = some true then
    (basename filePath).startsWith "." ||
    strEndsWith filePath ".d.ts" ||
    !(strEndsWith filePath ".ts" || strEndsWith filePath ".tsx")
  else false

/-- Delivery of one watcher `add`/`change` event: chokidar suppresses events
for paths its `ignored` option accepts; otherwise the registered handler
compiles exactly `path.join(srcDir, filePath)` (event paths are relative to
the watcher's `cwd`, which is `srcDir`). -/
def watchOnEvent (env : Env) (excludePatterns : List String) (fs : FS)
    (srcDir outDir : String) (filePath : String) (statsIsFile : Option Bool) :
    FS × Option Outcome :=
  if watcherIgnored env excludePatterns filePath statsIsFile then (fs, none)
  else
    let r := compileFile env fs (pathJoin srcDir filePath) srcDir outDir
    (r.1, some r.2)

/-! ## Declaration process supervisor (`startTsc`) -/

/-- What the spawned `yarn tsc` child does: exit with a code (`none` when
killed by a signal), or emit a spawn-level `error` event (the process never
ran; with `shell: true` this happens for e.g. a nonexistent `cwd`). -/
inductive SpawnResult where
  | exited (code : Option Int)
  | errorEvent
deriving DecidableEq, Repr

/-- The state of the promise `startTsc` returns. -/
inductive TscOutcome where
  | resolved (code : Int)
  | rejected
  | pending
deriving DecidableEq, Repr

/-- `startTsc`: the `exit` listener resolves on code 0 and rejects
otherwise; the `error` listener only logs `[TSC] Watcher failed to start`,
so after a spawn error the promise never settles. -/
def startTsc : SpawnResult → TscOutcome
  | .exited (some 0) => .resolved 0
  | .exited _ => .rejected
  | .errorEvent => .pending

/-- Exit code of a one-shot (build-mode) run as far as the declaration
subprocess decides it: `main` awaits `Promise.all` of `startTsc` and
`runBuild`, and `main().catch` maps a rejection to `process.exit(1)`; a
pending `startTsc` leaves the await suspended forever, so the process never
exits (`none`). -/
def oneShotExit (r : SpawnResult) : Option Nat :=
  match startTsc r with
  | .resolved _ => some 0
  | .rejected => some 1
  | .pending => none

/-! ## Lifecycle coordinator (the unnamed launcher script) -/

/-- `pickExisting`: the first of the candidate paths that exists. -/
def pickExisting (exists? : String → Bool) (paths : List String) : Option String :=
  paths.find? exists?

/-- The launcher's startup: look for `swc-ts-build.ts` then
`swc-ts-build.js` next to the launcher; when neither exists it logs and
calls `process.exit(1)` at once (`some 1`); otherwise startup proceeds and
no exit is decided yet (`none`). -/
def coordinatorStartup (exists? : String → Bool) (dir : String) : Option Nat :=
  match pickExisting exists?
      [pathJoin dir "swc-ts-build.ts", pathJoin dir "swc-ts-build.js"] with
  | none => some 1
  | some _ => none

/-- Signals the coordinator sends to the child's process group
(`process.kill(-pid, signal)`). -/
inductive Sig where
  | sigterm
  | sigkill
deriving DecidableEq, Repr

/-- The `exit` listeners registered on the child, in registration order:
the startup listener `code => process.exit(code || 0)`, and the listener
`handleShutdown` adds, `() => \x7b clearTimeout(timeout); process.exit(0) \x7d`. -/
inductive EHandler where
  | defaultExit
  | shutdownExit
deriving DecidableEq, Repr

/-- Coordinator process state: the group signals sent so far, whether the
grace-period timer is armed, the child's `exit` listeners in registration
order, and the coordinator's own exit status once `process.exit` ran. -/
structure CoordState where
  signalsSent : List Sig
  timerArmed : Bool
  exitListeners : List EHandler
  exited : Option Nat
deriving DecidableEq, Repr

/-- State after `main` registered its handlers: no signal sent, no timer,
only the startup `exit` listener attached, process still running. -/
def initCoord : CoordState :=
  { signalsSent := [], timerArmed := false,
    exitListeners := [.defaultExit], exited := none }

/-- `handleShutdown`: send `SIGTERM` to the child's process group, arm the
5-second grace timer, and append a further `exit` listener on the child. -/
def handleShutdown (st : CoordState) : CoordState :=
  { st with
    signalsSent := st.signalsSent ++ [.sigterm]
    timerArmed := true
    exitListeners := st.exitListeners ++ [.shutdownExit] }

/-- Run one registered `exit` listener for a child exit carrying `code`
(`none` when the child was killed by a signal).  `process.exit` records the
status; `code || 0` maps `null` and `0` to `0`. -/
def runListener (st : CoordState) (code : Option Nat) : EHandler → CoordState
  | .defaultExit => { st with exited := some (code.getD 0) }
  | .shutdownExit => { st with timerArmed := false, exited := some 0 }

/-- Emit the child's `exit` event: Node runs the listeners synchronously in
registration order, and `process.exit` inside a listener terminates the
process at once, so listeners after the first exiting one never run. -/
def emitChildExit (st : CoordState) (code : Option Nat) : CoordState :=
  st.exitListeners.foldl
    (fun s h => if s.exited.isSome then s else runListener s code h) st

/-- The grace timer fires: the callback only runs when the timer is still
armed and the process has not already exited (process exit discards pending
timers); it sends `SIGKILL` to the group and exits with status 1. -/
def fireGraceTimer (st : CoordState) : CoordState :=
  if st.timerArmed && st.exited.isNone then
    { st with signalsSent := st.signalsSent ++ [.sigkill], exited := some 1 }
  else st

/-- Scenario: a termination request arrives and the child then exits with
`code` before the grace timer fires. -/
def shutdownThenChildExits (code : Option Nat) : CoordState :=
  emitChildExit (handleShutdown initCoord) code

/-- Scenario: a termination request arrives and the grace timer fires
before any child exit. -/
def shutdownThenTimeout : CoordState :=
  fireGraceTimer (handleShutdown initCoord)

/-! ## Concrete instances used to exercise the theorems -/

/-- A small concrete environment: a project at `/proj` with `helper.ts`,
`helper.tsx` and `util/index.ts` under `/proj/src`; sources under `/s`
compile to `/o`, the engine rejects `/s/bad.ts` and emits fixed text plus a
map for everything else; the exclude pattern `skip` matches `/s/skip.ts`. -/
def sampleEnv : Env where
  transform := fun p =>
    if p == "/s/bad.ts" then .error "boom"
    else .ok ("const x = 1;", some "MAP")
  resolveOracle := fun p _ =>
    if p == "./helper.tsx" then some "/proj/src/helper.tsx"
    else if p == "./helper.ts" then some "/proj/src/helper.ts"
    else if p == "./util" then some "/proj/src/util/index.ts"
    else none
  cwd := "/proj"
  globMatch := fun f p => f == "/s/skip.ts" && p == "skip"
  writeFails := fun _ => false
  importSplit := fun s => [.lit s]
  requireSplit := fun s => [.lit s]

/-- An empty output tree. -/
def fs0 : FS := { files := [], clock := 0 }

/-- An output tree already holding the text `sampleEnv` produces for
`/s/a.ts`, next to a stale map file whose content differs from the map the
engine now produces. -/
def fsExisting : FS :=
  { files :=
      [("/o/a.js", ⟨"const x = 1;\n//# sourceMappingURL=a.js.map", 7⟩),
       ("/o/a.js.map", ⟨"OLD MAP", 7⟩)]
    clock := 8 }

/-! ## Auxiliary lemmas about the string and filesystem model -/

theorem mem_of_mem_takeWhileChar {p : Char → Bool} :
    ∀ {l : List Char} {a : Char}, a ∈ l.takeWhile p → a ∈ l := by
  intro l
  induction l with
  | nil => intro a h; simp [List.takeWhile] at h
  | cons x xs ih =>
    intro a h
    rw [List.takeWhile] at h
    cases hp : p x with
    | true =>
      rw [hp] at h
      rcases List.mem_cons.mp h with h1 | h1
      · exact h1 ▸ List.mem_cons_self x xs
      · exact List.mem_cons_of_mem x (ih h1)
    | false => rw [hp] at h; cases h

theorem isPrefixOf_append_self :
    ∀ (a b : List Char), a.isPrefixOf (a ++ b) = true := by
  intro a b
  induction a with
  | nil => simp [List.isPrefixOf]
  | cons x xs ih => simp [List.isPrefixOf, ih]

theorem string_append_ne_self (s t : String) (ht : t.data ≠ []) :
    s ++ t ≠ s := by
  intro h
  have hd : s.data ++ t.data = s.data := by
    have := congrArg String.data h
    simpa [String.data_append] using this
  have hlen := congrArg List.length hd
  simp [List.length_append] at hlen
  exact ht (List.length_eq_zero.mp hlen)

theorem FS.read_write_self (fs : FS) (p c : String) :
    (fs.write p c).read p = some ⟨c, fs.clock⟩ := by
  simp [FS.read, FS.write, List.lookup]

theorem FS.read_write_other (fs : FS) (p q c : String) (h : q ≠ p) :
    (fs.write p c).read q = fs.read q := by
  simp [FS.read, FS.write, List.lookup, beq_eq_false_iff_ne.mpr h]

theorem strEndsWith_decomp {s t : String} (h : strEndsWith s t = true) :
    s.data = s.data.take (s.data.length - t.data.length) ++ t.data := by
  unfold strEndsWith at h
  rw [Bool.and_eq_true] at h
  have hd : s.data.drop (s.data.length - t.data.length) = t.data :=
    eq_of_beq h.2
  conv_lhs => rw [← List.take_append_drop (s.data.length - t.data.length) s.data]
  rw [hd]

theorem strEndsWith_intro (s t : String) (u : List Char)
    (h : s.data = u ++ t.data) : strEndsWith s t = true := by
  unfold strEndsWith
  rw [Bool.and_eq_true]
  constructor
  · rw [decide_eq_true_eq, h, List.length_append]
    exact Nat.le_add_left _ _
  · rw [h, List.length_append, Nat.add_sub_cancel, List.drop_left]
    exact beq_self_eq_true t.data

theorem append_ts_ne_append_tsx (u w : List Char) :
    u ++ ['.', 't', 's'] ≠ w ++ ['.', 't', 's', 'x'] := by
  intro h
  have h1 : (u ++ ['.', 't', 's']).getLast? = some 's' := by
    rw [show u ++ ['.', 't', 's'] = (u ++ ['.', 't']) ++ ['s'] by simp]
    exact List.getLast?_concat _
  have h2 : (w ++ ['.', 't', 's', 'x']).getLast? = some 'x' := by
    rw [show w ++ ['.', 't', 's', 'x'] = (w ++ ['.', 't', 's']) ++ ['x'] by simp]
    exact List.getLast?_concat _
  rw [h, h2] at h1
  exact absurd (Option.some.inj h1) (by decide)

theorem pathRelative_append (base r : String) :
    pathRelative base (base ++ "/" ++ r) = r := by
  unfold pathRelative
  have hdata : (base ++ "/" ++ r).data = (base ++ "/").data ++ r.data := by
    rw [String.data_append]
  rw [if_pos (by rw [hdata]; exact isPrefixOf_append_self _ _)]
  apply String.ext
  show (base ++ "/" ++ r).data.drop (base.data.length + 1) = r.data
  rw [hdata,
    show base.data.length + 1 = (base ++ "/").data.length by
      simp [String.data_append],
    List.drop_left]

theorem isWordChar_ne_dot {c : Char} (h : isWordChar c = true) : c ≠ '.' := by
  intro he
  rw [he] at h
  exact absurd h (by decide)

theorem not_dot_of_isBarePackage {s : String} (h : isBarePackage s = true) :
    '.' ∉ s.data := by
  intro hmem
  unfold isBarePackage at h
  split at h
  next rest heq =>
    split at h
    next tail hdrop =>
      rw [Bool.and_eq_true] at h
      have hword : isWord tail = true := h.2
      rw [isWord, Bool.and_eq_true] at hword
      have hall := List.all_eq_true.mp hword.2
      rw [heq] at hmem
      rcases List.mem_cons.mp hmem with h1 | h1
      · exact absurd h1 (by decide)
      · rw [← List.takeWhile_append_dropWhile isWordChar rest] at h1
        rcases List.mem_append.mp h1 with h2 | h2
        · exact isWordChar_ne_dot (List.mem_takeWhile_imp h2) rfl
        · rw [hdrop] at h2
          rcases List.mem_cons.mp h2 with h3 | h3
          · exact absurd h3 (by decide)
          · exact isWordChar_ne_dot (hall _ h3) rfl
    next => exact absurd h (by simp)
  next =>
    rw [isWord, Bool.and_eq_true] at h
    exact isWordChar_ne_dot (List.all_eq_true.mp h.2 _ hmem) rfl

theorem extname_empty_of_isBarePackage {s : String}
    (h : isBarePackage s = true) : extname s = "" := by
  have hnb : '.' ∉ basenameList s.data := by
    intro hm
    apply not_dot_of_isBarePackage h
    unfold basenameList at hm
    rw [List.mem_reverse] at hm
    exact List.mem_reverse.mp (mem_of_mem_takeWhileChar hm)
  unfold extname extnameList
  rw [if_neg hnb]

/-! ## The claims -/

/-- C4: every specifier matching the bare-package regex (optional scope
segment plus package-name segment) is returned unchanged by the import
rewriter, for every environment and importing file. -/
theorem bare_package_unchanged (env : Env) (p f : String)
    (h : isBarePackage p = true) :
    resolveAndFixImport env p f = .ok p := by
  unfold resolveAndFixImport
  rw [extname_empty_of_isBarePackage h]
  rw [if_neg (by decide : ¬("" : String) = ".json"), if_pos h]

/-- C4 witness: `lodash` and `@scope/pkg` are bare package names and come
back unchanged in the sample environment. -/
theorem bare_package_unchanged_witness :
    resolveAndFixImport sampleEnv "lodash" "/proj/src/main.ts" = .ok "lodash" ∧
    resolveAndFixImport sampleEnv "@scope/pkg" "/proj/src/main.ts" =
      .ok "@scope/pkg" :=
  ⟨bare_package_unchanged sampleEnv "lodash" "/proj/src/main.ts" (by decide),
   bare_package_unchanged sampleEnv "@scope/pkg" "/proj/src/main.ts" (by decide)⟩

/-- C2: `./helper.ts` is rewritten to `./helper.js` as claimed, but a
`.tsx` specifier is NOT rewritten to `.js` correctly: `slice(0, -3)` drops
only three characters, so `./helper.tsx` (resolving to an in-project
non-index file) becomes `./helper..js` instead of `./helper.js`. -/
theorem tsx_extension_mangled :
    resolveAndFixImport sampleEnv "./helper.tsx" "/proj/src/main.ts" =
      .ok "./helper..js" ∧
    ("./helper..js" : String) ≠ "./helper.js" ∧
    resolveAndFixImport sampleEnv "./helper.ts" "/proj/src/main.ts" =
      .ok "./helper.js" :=
  ⟨rfl, by decide, rfl⟩

/-- C7 (amended): on a termination request the coordinator sends `SIGTERM`
to the child's process group and arms the grace timer; when the child exits
before the timer fires the coordinator exits with the child's exit code
defaulted to 0 (so with 0 when the child was terminated by the signal,
because the startup-registered exit listener runs first and calls
`process.exit(code || 0)`); when the timer fires first it sends `SIGKILL`
to the group and exits with status 1. -/
theorem coordinator_shutdown_behavior (code : Option Nat) :
    (shutdownThenChildExits code).signalsSent = [Sig.sigterm] ∧
    (shutdownThenChildExits code).exited = some (code.getD 0) ∧
    shutdownThenTimeout.signalsSent = [Sig.sigterm, Sig.sigkill] ∧
    shutdownThenTimeout.exited = some 1 :=
  ⟨rfl, rfl, rfl, rfl⟩

/-- C7 amended witness: the shutdown theorem at a child killed by the
graceful signal (no exit code), the case in which the coordinator does exit
with status 0. -/
theorem coordinator_shutdown_behavior_witness :
    (shutdownThenChildExits none).signalsSent = [Sig.sigterm] ∧
    (shutdownThenChildExits none).exited = some 0 ∧
    shutdownThenTimeout.signalsSent = [Sig.sigterm, Sig.sigkill] ∧
    shutdownThenTimeout.exited = some 1 :=
  coordinator_shutdown_behavior none

/-- C7 counterexample: when the child exits with code 3 inside the grace
period, the coordinator exits with status 3, not with status 0 as the claim
states — the startup exit listener `code => process.exit(code || 0)` was
registered before the shutdown handler's `process.exit(0)` listener and
runs first. -/
theorem coordinator_exit_code_nonzero :
    (shutdownThenChildExits (some 3)).exited = some 3 ∧
    ¬(shutdownThenChildExits (some 3)).exited = some 0 :=
  ⟨rfl, by decide⟩

/-- C9: a missing runnable worker script makes the launcher exit 1 at once,
and a nonzero exit of the declaration subprocess in one-shot mode is fatal;
but a spawn-level `error` event is only logged by `startTsc`'s `error`
handler, the promise never settles, and the run never exits at all —
contradicting the claim that a tool startup failure exits nonzero
immediately. -/
theorem startup_error_handling :
    coordinatorStartup (fun _ => false) "/tools" = some 1 ∧
    oneShotExit (SpawnResult.exited (some 2)) = some 1 ∧
    oneShotExit SpawnResult.errorEvent = none :=
  ⟨rfl, rfl, rfl⟩

/-- C8 counterexample: `/s/a.ts` and `/s/a.tsx` are distinct enumerated
source files mapping to the same output path `/o/a.js`, so the source-path
to output-path mapping is not injective over enumerated files. -/
theorem outPath_collision :
    ("/s/a.ts" : String) ≠ "/s/a.tsx" ∧
    "/s/a.ts" ∈ enumerate sampleEnv "/s" ["/s/a.ts", "/s/a.tsx"] [] ∧
    "/s/a.tsx" ∈ enumerate sampleEnv "/s" ["/s/a.ts", "/s/a.tsx"] [] ∧
    outPathOf "/s" "/o" "/s/a.ts" = outPathOf "/s" "/o" "/s/a.tsx" :=
  ⟨by decide, by decide, by decide, rfl⟩

/-- C3: in the environment-independent core of the rewriter, once a local
specifier `p` resolved (in project, absolute, not under `node_modules`) to
the file `r`, the rewriter behaves as the claim says: resolving to a
directory-index file (`index.js`/`index.ts`) makes it append `/index.js`,
and among the non-extension-bearing specifiers those are the only ones that
get the index suffix. -/
theorem index_resolution_appends_index (env : Env) (p f r : String)
    (hjson : extname p ≠ ".json")
    (hbare : isBarePackage p = false)
    (hres : resolve env p f = .ok r)
    (habs : isAbsolutePath r = true)
    (hnm : nodeModulesTest (pathRelative env.cwd r) = false) :
    ((basename r = "index.js" ∨ basename r = "index.ts") →
      resolveAndFixImport env p f = .ok (p ++ "/index.js")) ∧
    (extname p = "" →
      (resolveAndFixImport env p f = .ok (p ++ "/index.js") ↔
        (basename r = "index.js" ∨ basename r = "index.ts"))) := by
  have hmain : resolveAndFixImport env p f =
      (if basename r = "index.js" ∨ basename r = "index.ts" then
        .ok (p ++ "/index.js")
      else if extname p = ".ts" ∨ extname p = ".tsx" then
        .ok (strDropRight p 3 ++ ".js")
      else .ok (p ++ ".js")) := by
    unfold resolveAndFixImport
    rw [if_neg hjson, if_neg (by simp [hbare]), hres]
    simp [habs, hnm]
  constructor
  · intro hidx
    rw [hmain, if_pos hidx]
  · intro hext
    constructor
    · intro heq
      by_contra hidx
      rw [hmain, if_neg hidx,
        if_neg (show ¬(extname p = ".ts" ∨ extname p = ".tsx") by
          rw [hext]; decide)] at heq
      have h2 : p ++ ".js" = p ++ "/index.js" := Except.ok.inj heq
      have h3 := congrArg String.data h2
      rw [String.data_append, String.data_append] at h3
      exact absurd (List.append_cancel_left h3) (by decide)
    · intro hidx
      rw [hmain, if_pos hidx]

/-- C3 witness: `./util` resolving to `/proj/src/util/index.ts` is
rewritten to `./util/index.js`. -/
theorem index_resolution_appends_index_witness :
    resolveAndFixImport sampleEnv "./util" "/proj/src/main.ts" =
      .ok "./util/index.js" :=
  (index_resolution_appends_index sampleEnv "./util" "/proj/src/main.ts"
    "/proj/src/util/index.ts" (by decide) (by decide) rfl rfl rfl).1
    (Or.inr rfl)

theorem strDropRight_of_decomp (s : String) (u t : List Char)
    (h : s.data = u ++ t) : (strDropRight s t.length).data = u := by
  show s.data.take (s.data.length - t.length) = u
  rw [h, List.length_append, Nat.add_sub_cancel, List.take_left]

theorem outPathOf_ts (srcDir outDir r : String) (u : List Char)
    (hu : r.data = u ++ (".ts" : String).data) :
    (outPathOf srcDir outDir (srcDir ++ "/" ++ r)).data =
      (outDir.data ++ '/' :: u) ++ (".js" : String).data := by
  unfold outPathOf
  rw [pathRelative_append]
  have hjd : (pathJoin outDir r).data =
      (outDir.data ++ '/' :: u) ++ (".ts" : String).data := by
    simp [pathJoin, String.data_append, hu]
  have hnotx : ¬strEndsWith (pathJoin outDir r) ".tsx" = true := by
    intro hx
    have hdec := strEndsWith_decomp hx
    rw [hjd] at hdec
    exact append_ts_ne_append_tsx (outDir.data ++ '/' :: u) _ hdec
  rw [if_neg hnotx,
    if_pos (strEndsWith_intro (pathJoin outDir r) ".ts" _ hjd)]
  rw [String.data_append,
    show (3 : Nat) = (".ts" : String).data.length from rfl,
    strDropRight_of_decomp _ _ _ hjd]

theorem outPathOf_tsx (srcDir outDir r : String) (u : List Char)
    (hu : r.data = u ++ (".tsx" : String).data) :
    (outPathOf srcDir outDir (srcDir ++ "/" ++ r)).data =
      (outDir.data ++ '/' :: u) ++ (".js" : String).data := by
  unfold outPathOf
  rw [pathRelative_append]
  have hjd : (pathJoin outDir r).data =
      (outDir.data ++ '/' :: u) ++ (".tsx" : String).data := by
    simp [pathJoin, String.data_append, hu]
  rw [if_pos (strEndsWith_intro (pathJoin outDir r) ".tsx" _ hjd)]
  rw [String.data_append,
    show (4 : Nat) = (".tsx" : String).data.length from rfl,
    strDropRight_of_decomp _ _ _ hjd]

/-- C8 (amended): the source-to-output path mapping is injective over
enumerated files that carry the same source extension — two distinct `.ts`
files (or two distinct `.tsx` files) under the source root never share an
output path; only a `.ts`/`.tsx` pair with the same stem collides. -/
theorem outPath_injective_per_extension :
    (∀ srcDir outDir r1 r2 : String,
      strEndsWith r1 ".ts" = true → strEndsWith r2 ".ts" = true →
      outPathOf srcDir outDir (srcDir ++ "/" ++ r1) =
        outPathOf srcDir outDir (srcDir ++ "/" ++ r2) → r1 = r2) ∧
    (∀ srcDir outDir r1 r2 : String,
      strEndsWith r1 ".tsx" = true → strEndsWith r2 ".tsx" = true →
      outPathOf srcDir outDir (srcDir ++ "/" ++ r1) =
        outPathOf srcDir outDir (srcDir ++ "/" ++ r2) → r1 = r2) := by
  constructor
  · intro srcDir outDir r1 r2 h1 h2 hout
    have d1 := strEndsWith_decomp h1
    have d2 := strEndsWith_decomp h2
    have e1 := outPathOf_ts srcDir outDir r1 _ d1
    have e2 := outPathOf_ts srcDir outDir r2 _ d2
    rw [hout, e2] at e1
    have hu := List.cons_injective.eq_iff.mp
      (List.append_cancel_left (List.append_cancel_right e1.symm))
    apply String.ext
    rw [d1, d2, hu]
  · intro srcDir outDir r1 r2 h1 h2 hout
    have d1 := strEndsWith_decomp h1
    have d2 := strEndsWith_decomp h2
    have e1 := outPathOf_tsx srcDir outDir r1 _ d1
    have e2 := outPathOf_tsx srcDir outDir r2 _ d2
    rw [hout, e2] at e1
    have hu := List.cons_injective.eq_iff.mp
      (List.append_cancel_left (List.append_cancel_right e1.symm))
    apply String.ext
    rw [d1, d2, hu]

/-- C8 amended witness: the injectivity theorem applied at a concrete
`.ts` file. -/
theorem outPath_injective_per_extension_witness :
    ("sub/a.ts" : String) = "sub/a.ts" :=
  outPath_injective_per_extension.1 "/s" "/o" "sub/a.ts" "sub/a.ts"
    (by decide) (by decide) rfl

theorem compileFile_skip_of_trim_eq (env : Env) (fs : FS)
    (f srcDir outDir : String) (fc : String) (mo : Option String)
    (hfo : fixedOutput env f srcDir outDir = .ok (fc, mo))
    (heq : strTrim fc =
      strTrim (((fs.read (outPathOf srcDir outDir f)).map
        FileState.content).getD "")) :
    compileFile env fs f srcDir outDir = (fs, .skipped) := by
  simp only [compileFile, hfo]
  exact if_neg (fun hne => hne heq)

/-- C10: when the trimmed rewritten code equals the trimmed existing output
text, `compileFile` leaves the filesystem completely unchanged — neither the
output file nor the sibling map file is written, whatever map the engine
produced this time. -/
theorem compileFile_trim_equal_skips (env : Env) (fs : FS)
    (f srcDir outDir : String) (fc : String) (mo : Option String)
    (hfo : fixedOutput env f srcDir outDir = .ok (fc, mo))
    (heq : strTrim fc =
      strTrim (((fs.read (outPathOf srcDir outDir f)).map
        FileState.content).getD "")) :
    compileFile env fs f srcDir outDir = (fs, .skipped) :=
  compileFile_skip_of_trim_eq env fs f srcDir outDir fc mo hfo heq

/-- C10 witness: the output text for `/s/a.ts` is already on disk while the
map file on disk (`OLD MAP`) differs from the map the engine now produces
(`MAP`); the compile writes neither file. -/
theorem compileFile_trim_equal_skips_witness :
    compileFile sampleEnv fsExisting "/s/a.ts" "/s" "/o" =
      (fsExisting, .skipped) :=
  compileFile_trim_equal_skips sampleEnv fsExisting "/s/a.ts" "/s" "/o"
    "const x = 1;\n//# sourceMappingURL=a.js.map" (some "MAP") rfl rfl

/-- C1: a second `compileFile` run over an unchanged source (the same
environment) finds the trimmed text it would write already in the output
file, skips the write, and leaves the whole filesystem — contents and
modification times — exactly as the first run left it. -/
theorem compileFile_second_run_skips (env : Env) (fs : FS)
    (f srcDir outDir : String)
    (h : (compileFile env fs f srcDir outDir).2 = .wrote ∨
         (compileFile env fs f srcDir outDir).2 = .skipped) :
    compileFile env (compileFile env fs f srcDir outDir).1 f srcDir outDir =
      ((compileFile env fs f srcDir outDir).1, .skipped) := by
  rcases hr : compileFile env fs f srcDir outDir with ⟨fs1, o1⟩
  rw [hr] at h
  simp only at h
  cases hfo : fixedOutput env f srcDir outDir with
  | error e =>
    simp only [compileFile, hfo] at hr
    injection hr with h1 h2
    subst h1; subst h2
    simp at h
  | ok pr =>
    obtain ⟨fc, mo⟩ := pr
    apply compileFile_skip_of_trim_eq env fs1 f srcDir outDir fc mo hfo
    simp only [compileFile, hfo] at hr
    by_cases hc : strTrim fc =
        strTrim (((fs.read (outPathOf srcDir outDir f)).map
          FileState.content).getD "")
    · rw [if_neg (fun hne => hne hc)] at hr
      injection hr with h1 h2
      subst h1; subst h2
      exact hc
    · rw [if_pos hc] at hr
      by_cases hw : env.writeFails (outPathOf srcDir outDir f) = true
      · rw [if_pos hw] at hr
        injection hr with h1 h2
        subst h1; subst h2
        simp at h
      · rw [if_neg hw] at hr
        cases mo with
        | none =>
          injection hr with h1 h2
          subst h1; subst h2
          rw [FS.read_write_self]
          simp
        | some m =>
          dsimp only at hr
          by_cases hw2 : env.writeFails (outPathOf srcDir outDir f ++ ".map") = true
          · rw [if_pos hw2] at hr
            injection hr with h1 h2
            subst h1; subst h2
            simp at h
          · rw [if_neg hw2] at hr
            injection hr with h1 h2
            subst h1; subst h2
            rw [FS.read_write_other _ _ _ _
              (Ne.symm (string_append_ne_self _ ".map" (by decide))),
              FS.read_write_self]
            simp

/-- C1 witness: compiling `/s/a.ts` into an empty output tree writes; the
immediate second run skips and returns the filesystem unchanged. -/
theorem compileFile_second_run_skips_witness :
    compileFile sampleEnv (compileFile sampleEnv fs0 "/s/a.ts" "/s" "/o").1
        "/s/a.ts" "/s" "/o" =
      ((compileFile sampleEnv fs0 "/s/a.ts" "/s" "/o").1, .skipped) :=
  compileFile_second_run_skips sampleEnv fs0 "/s/a.ts" "/s" "/o" (Or.inl rfl)

theorem compileFile_transform_error (env : Env) (fs : FS)
    (b srcDir outDir m : String)
    (hb : env.transform (pathJoin srcDir (pathRelative srcDir b)) = .error m) :
    compileFile env fs b srcDir outDir = (fs, .failed (.transformError m)) := by
  simp [compileFile, fixedOutput, hb]

/-- C5: `compileFile` is total — every per-file error is returned as a
logged outcome — so a batch settles one outcome per file, and a file whose
transformation fails leaves the filesystem untouched and the rest of the
batch exactly as if the failing file were not present. -/
theorem compileFile_isolates_failures (env : Env) :
    (∀ (fs : FS) (srcDir outDir : String) (l : List String),
      (processFiles env fs srcDir outDir l).2.length = l.length) ∧
    (∀ (fs : FS) (srcDir outDir : String) (l1 l2 : List String) (b m : String),
      env.transform (pathJoin srcDir (pathRelative srcDir b)) = .error m →
      processFiles env fs srcDir outDir (l1 ++ b :: l2) =
        ((processFiles env (processFiles env fs srcDir outDir l1).1
            srcDir outDir l2).1,
         (processFiles env fs srcDir outDir l1).2 ++
           .failed (.transformError m) ::
           (processFiles env (processFiles env fs srcDir outDir l1).1
             srcDir outDir l2).2)) := by
  constructor
  · intro fs srcDir outDir l
    induction l generalizing fs with
    | nil => rfl
    | cons f rest ih => simp [processFiles, ih]
  · intro fs srcDir outDir l1 l2 b m hb
    induction l1 generalizing fs with
    | nil =>
      simp [processFiles, compileFile_transform_error env fs b srcDir outDir m hb]
    | cons a l1 ih =>
      simp [processFiles, ih]

/-- C5 witness: in a three-file batch whose middle file has a
transformation error, the batch records the failure for that file and the
other two compiles proceed as without it. -/
theorem compileFile_isolates_failures_witness :
    sampleEnv.transform (pathJoin "/s" (pathRelative "/s" "/s/bad.ts")) =
      .error "boom" ∧
    processFiles sampleEnv fs0 "/s" "/o" (["/s/a.ts"] ++ "/s/bad.ts" :: ["/s/c.ts"]) =
      ((processFiles sampleEnv (processFiles sampleEnv fs0 "/s" "/o" ["/s/a.ts"]).1
          "/s" "/o" ["/s/c.ts"]).1,
       (processFiles sampleEnv fs0 "/s" "/o" ["/s/a.ts"]).2 ++
         .failed (.transformError "boom") ::
         (processFiles sampleEnv (processFiles sampleEnv fs0 "/s" "/o" ["/s/a.ts"]).1
           "/s" "/o" ["/s/c.ts"]).2) :=
  ⟨rfl, (compileFile_isolates_failures sampleEnv).2 fs0 "/s" "/o"
    ["/s/a.ts"] ["/s/c.ts"] "/s/bad.ts" "boom" rfl⟩

/-- C6: a file matching any exclude pattern is left out of the batch
enumeration, is ignored by the watcher's predicate even when stats mark it
a file, and an add/change event delivered for it triggers no compile. -/
theorem excluded_file_never_compiled (env : Env) (srcDir outDir : String)
    (allFiles excludePatterns : List String) (f p : String) (fs : FS)
    (st : Option Bool) (hp : p ∈ excludePatterns)
    (hm : env.globMatch f p = true) :
    f ∉ enumerate env srcDir allFiles excludePatterns ∧
    watcherIgnored env excludePatterns f st = true ∧
    watchOnEvent env excludePatterns fs srcDir outDir f st = (fs, none) := by
  have hany : excludePatterns.any (fun q => env.globMatch f q) = true :=
    List.any_eq_true.mpr ⟨p, hp, hm⟩
  refine ⟨?_, ?_, ?_⟩
  · intro hmem
    simp [enumerate, List.mem_filter, hany] at hmem
  · simp [watcherIgnored, hany]
  · simp [watchOnEvent, watcherIgnored, hany]

/-- C6 witness: `/s/skip.ts` matches the exclude pattern `skip`; it is not
enumerated, the watcher ignore predicate accepts it, and an event for it
compiles nothing. -/
theorem excluded_file_never_compiled_witness :
    "/s/skip.ts" ∉ enumerate sampleEnv "/s" ["/s/skip.ts", "/s/a.ts"] ["skip"] ∧
    watcherIgnored sampleEnv ["skip"] "/s/skip.ts" (some true) = true ∧
    watchOnEvent sampleEnv ["skip"] fs0 "/s" "/o" "/s/skip.ts" (some true) =
      (fs0, none) :=
  excluded_file_never_compiled sampleEnv "/s" "/o" ["/s/skip.ts", "/s/a.ts"]
    ["skip"] "/s/skip.ts" "skip" fs0 (some true) (by decide) rfl

end SwcTsBuild
